import Mathlib

/-!
Verification development for the LaphriaEngine frame-orchestration core.

Each definition below is a shallow embedding of a function of the C++
source (EngineCore, VulkanDevice, SwapchainManager, FrameContext,
PhysicsSystem, Scene, Octree).  Machine integers are modelled as `Nat`
with explicit `% 2 ^ 32` where 32-bit overflow could matter; fallible
code returns `Except`/`Option`; GPU handles irrelevant to the verified
properties are modelled as opaque `Nat` tokens; float arithmetic in the
cascade-split formula is modelled over `ℝ`.
-/

namespace Laphria

/-! ### Swapchain present-mode selection (SwapchainManager::chooseSwapPresentMode) -/

/-- Vulkan present modes relevant to `chooseSwapPresentMode`. -/
inductive PresentMode where
  | immediate
  | mailbox
  | fifo
  | fifoRelaxed
deriving DecidableEq

/-- Embedding of `SwapchainManager::chooseSwapPresentMode`
(src/src/Core/SwapchainManager.cpp lines 99-112).
The source first throws when no offered mode equals FIFO, then returns
Mailbox when offered, else FIFO. -/
def chooseSwapPresentMode (availablePresentModes : List PresentMode) : Except String PresentMode :=
  if ¬ availablePresentModes.any (fun presentMode => presentMode = PresentMode.fifo) then
    Except.error "Vulkan driver missing mandatory FIFO present mode (spec violation)"
  else if availablePresentModes.any (fun value => PresentMode.mailbox = value) then
    Except.ok PresentMode.mailbox
  else
    Except.ok PresentMode.fifo

/-! ### Physical-device selection (VulkanDevice::pickPhysicalDevice) -/

/-- Subset of `vk::PhysicalDeviceType` used by the scoring code. -/
inductive DeviceType where
  | discreteGpu
  | integratedGpu
  | otherType
deriving DecidableEq

/-- Device extensions; the six members of `VulkanDevice::requiredDeviceExtension`
plus a stand-in for any other extension a device may advertise. -/
inductive DeviceExtension where
  | khrSwapchain
  | khrCreateRenderpass2
  | extDescriptorIndexing
  | khrAccelerationStructure
  | khrRayTracingPipeline
  | khrDeferredHostOperations
  | unrelated (tag : Nat)
deriving DecidableEq

/-- Embedding of the `requiredDeviceExtension` vector (VulkanDevice.h lines 30-37). -/
def requiredDeviceExtension : List DeviceExtension :=
  [DeviceExtension.khrSwapchain,
   DeviceExtension.khrCreateRenderpass2,
   DeviceExtension.extDescriptorIndexing,
   DeviceExtension.khrAccelerationStructure,
   DeviceExtension.khrRayTracingPipeline,
   DeviceExtension.khrDeferredHostOperations]

/-- Packed Vulkan version number `VK_API_VERSION_1_4` (variant 0, major 1, minor 4, patch 0). -/
def VK_API_VERSION_1_4 : Nat := (1 <<< 22) ||| (4 <<< 12)

/-- One `vk::MemoryHeap`: a device-local flag and a size in bytes (`vk::DeviceSize`, 64-bit). -/
structure MemoryHeap where
  deviceLocal : Bool
  size : Nat
deriving DecidableEq

/-- Facts about one enumerated `vk::PhysicalDevice` that `pickPhysicalDevice` reads. -/
structure PhysicalDevice where
  apiVersion : Nat
  queueFamilyHasGraphics : List Bool
  availableExtensions : List DeviceExtension
  deviceType : DeviceType
  memoryHeaps : List MemoryHeap
deriving DecidableEq

/-- Hard-requirement check of `pickPhysicalDevice` (part_004 lines 1224-1243):
API version at least 1.4, some graphics-capable queue family, and every
required extension present among the available ones. -/
def mandatoryOk (d : PhysicalDevice) : Bool :=
  decide (d.apiVersion ≥ VK_API_VERSION_1_4) &&
  d.queueFamilyHasGraphics.any (fun qfp => qfp) &&
  requiredDeviceExtension.all (fun req => d.availableExtensions.any (fun avail => avail = req))

/-- Type contribution to the device score (part_004 lines 1245-1254). -/
def deviceTypeScore : DeviceType → Nat
  | DeviceType.discreteGpu => 10000
  | DeviceType.integratedGpu => 1000
  | DeviceType.otherType => 0

/-- Device score (part_004 lines 1245-1264): the type score plus, for every
device-local heap, its size in MiB truncated to `uint32_t`; the running
score is itself a `uint32_t`, hence the reductions `% 2 ^ 32`. -/
def deviceScore (d : PhysicalDevice) : Nat :=
  d.memoryHeaps.foldl
    (fun score h =>
      if h.deviceLocal then (score + h.size / (1024 * 1024) % 2 ^ 32) % 2 ^ 32 else score)
    (deviceTypeScore d.deviceType % 2 ^ 32)

/-- Descending insertion into a score-sorted list, comparing with the same
`a.score > b.score` predicate the source passes to `std::ranges::sort`. -/
def insertByScoreDesc (x : Nat × PhysicalDevice) :
    List (Nat × PhysicalDevice) → List (Nat × PhysicalDevice)
  | [] => [x]
  | y :: ys => if x.1 > y.1 then x :: y :: ys else y :: insertByScoreDesc x ys

/-- Sort scored devices by score descending.  `std::ranges::sort` is an
unstable sort; any descending reordering has the properties proved below
(the head is an eligible device of maximal score), so an insertion sort
is a faithful stand-in. -/
def sortByScoreDesc : List (Nat × PhysicalDevice) → List (Nat × PhysicalDevice)
  | [] => []
  | x :: xs => insertByScoreDesc x (sortByScoreDesc xs)

/-- Embedding of `VulkanDevice::pickPhysicalDevice` (part_004 lines 1207-1298):
filter out devices failing a hard requirement, score the survivors, sort
descending by score and select the first; `none` models the
`failed to find a suitable GPU` exception. -/
def pickPhysicalDevice (devices : List PhysicalDevice) : Option PhysicalDevice :=
  let scoredDevices := (devices.filter mandatoryOk).map (fun d => (deviceScore d, d))
  (sortByScoreDesc scoredDevices).head?.map Prod.snd

/-! ### Ray-tracing instance custom-index packing (EngineCore::recordCommandBuffer) -/

/-- Packing of a TLAS instance custom index (part_004 line 709):
`(node->modelId << 14) | (primitiveOffset & 0x3FFF)`, computed in
`uint32_t`, hence the final `% 2 ^ 32`. -/
def encodeCustomIndex (modelId primitiveOffset : Nat) : Nat :=
  ((modelId <<< 14) ||| (primitiveOffset &&& 0x3FFF)) % 2 ^ 32

/-- Decoding of the packed custom index as stated by the specification:
model identity from the top bits, primitive offset from the bottom 14. -/
def decodeCustomIndex (customIndex : Nat) : Nat × Nat :=
  (customIndex >>> 14, customIndex &&& 0x3FFF)

/-! ### TLAS build recording (EngineCore::recordCommandBuffer, part_004 lines 671-788) -/

/-- Scene node fields read by the TLAS instance-gathering loop. -/
structure RTNode where
  modelId : Int
  meshIndices : List Int

/-- Per-model resource facts read by the TLAS instance-gathering loop:
the number of bottom-level structures (`blasElements.size()`) and the
primitive count of each mesh (`meshes[i].primitives.size()`). -/
structure RTModelResource where
  blasCount : Nat
  meshPrimitiveCounts : List Nat

/-- Primitive offset of mesh `meshIdx` (part_004 lines 700-704): the sum of
the primitive counts of all earlier meshes. -/
def primitiveOffsetOf (res : RTModelResource) (meshIdx : Nat) : Nat :=
  (List.range meshIdx).foldl (fun acc i => acc + res.meshPrimitiveCounts.getD i 0) 0

/-- One gathered TLAS instance; of its fields only the packed custom index
matters to the verified claims. -/
structure TlasInstance where
  customIndex : Nat
deriving DecidableEq

/-- Instance list gathered from the scene (part_004 lines 671-726): for each
node with a nonnegative model id whose resource exists and has at least one
bottom-level structure, one instance per in-range mesh index. -/
def buildTlasInstances (nodes : List RTNode) (getModelResource : Int → Option RTModelResource) :
    List TlasInstance :=
  nodes.foldl
    (fun acc node =>
      if node.modelId ≥ (0 : Int) then
        match getModelResource node.modelId with
        | none => acc
        | some res =>
          if res.blasCount = 0 then acc
          else
            acc ++ node.meshIndices.foldl
              (fun inner meshIdx =>
                if meshIdx < (0 : Int) ∨ meshIdx ≥ (res.blasCount : Int) then inner
                else inner ++ [⟨encodeCustomIndex node.modelId.toNat
                                 (primitiveOffsetOf res meshIdx.toNat)⟩])
              ([] : List TlasInstance)
      else acc)
    ([] : List TlasInstance)

/-- Size in bytes of one `vk::AccelerationStructureInstanceKHR`. -/
def tlasInstanceByteSize : Nat := 64

/-- Commands the TLAS section records into the frame command buffer. -/
structure TlasCommands where
  copiedBytes : Option Nat
  hostWriteBarrier : Bool
  buildPrimitiveCount : Option Nat
  buildReadBarrier : Bool
deriving DecidableEq

/-- Embedding of the TLAS section of `EngineCore::recordCommandBuffer`
(part_004 lines 728-788): the gathered instance list is only uploaded and
built when `ui.useRayTracing` holds; the build is then always recorded,
with primitive count equal to the instance count (zero included), between
a host-write barrier and a build-to-ray-tracing barrier. -/
def recordTlasSection (useRayTracing : Bool) (tlasInstances : List TlasInstance) : TlasCommands :=
  if useRayTracing then
    { copiedBytes :=
        if tlasInstances.isEmpty then none
        else some (tlasInstances.length * tlasInstanceByteSize)
      hostWriteBarrier := true
      buildPrimitiveCount := some tlasInstances.length
      buildReadBarrier := true }
  else
    { copiedBytes := none
      hostWriteBarrier := false
      buildPrimitiveCount := none
      buildReadBarrier := false }

/-! ### Engine-wide constants (VulkanDevice.h lines 100-102) -/

/-- Number of frame slots in flight. -/
def MAX_FRAMES_IN_FLIGHT : Nat := 2

/-- Number of shadow cascades. -/
def NUM_SHADOW_CASCADES : Nat := 4

/-- Shadow-map side length in texels. -/
def SHADOW_MAP_DIM : Nat := 2048

/-! ### Cascade split depths (FrameContext::updateUniformBuffer) -/

/-- Cascade split depth for cascade `i` (SwapchainManager.cpp combined file,
lines 334-347), with the float arithmetic modelled over `ℝ`:
`p = (i+1)/NUM_SHADOW_CASCADES`, a log split `NEAR * (FAR/NEAR)^p`, a
linear split `NEAR + (FAR-NEAR)*p`, blended with lambda `0.95`.
The camera far plane (the `1000.0f` used for `ubo.proj` at line 322) is in
scope in the source but unused by this computation; it is taken as a
parameter here precisely so that independence from it can be stated. -/
noncomputable def cascadeSplitDepth (cameraFarPlane : ℝ) (i : Fin 4) : ℝ :=
  let NEAR_PLANE : ℝ := 0.1
  let SHADOW_MAX_DIST : ℝ := 200.0
  let SPLIT_LAMBDA : ℝ := 0.95
  let p : ℝ := ((i : ℕ) + 1) / (4 : ℝ)
  let splitLog : ℝ := NEAR_PLANE * (SHADOW_MAX_DIST / NEAR_PLANE) ^ p
  let splitLinear : ℝ := NEAR_PLANE + (SHADOW_MAX_DIST - NEAR_PLANE) * p
  SPLIT_LAMBDA * splitLog + (1 - SPLIT_LAMBDA) * splitLinear

/-- Cascade split formula exactly as written in the specification sentence:
`0.95 * (0.1 * (200/0.1)^((i+1)/4)) + 0.05 * (0.1 + (200 - 0.1) * (i+1)/4)`. -/
noncomputable def cascadeSplitSpecFormula (i : Fin 4) : ℝ :=
  0.95 * (0.1 * ((200 : ℝ) / 0.1) ^ (((i : ℕ) + 1) / (4 : ℝ))) +
    0.05 * (0.1 + ((200 : ℝ) - 0.1) * (((i : ℕ) + 1) / (4 : ℝ)))

/-! ### Physics SSBO upload (PhysicsSystem::updateSSBO, part_008 lines 314-350) -/

/-- Size in bytes of one `PhysicsObject` under std430 packing (part_008,
PhysicsDefines.h: four 16-byte rows). -/
def physicsObjectSize : Nat := 64

/-- Observable outcome of `PhysicsSystem::updateSSBO`: whether the overflow
diagnostic was emitted and how many bytes were copied into the mapped SSBO. -/
structure SSBOCopy where
  overflowDiagnostic : Bool
  copiedBytes : Nat
deriving DecidableEq

/-- Embedding of `PhysicsSystem::updateSSBO` (part_008 lines 314-350).
The serialization loop produces exactly one 64-byte `PhysicsObject` per
node (its field contents are irrelevant here, so the node type is left
abstract); with no objects the function returns before touching the
buffer; otherwise the copy size is clamped to `currentSSBOSize` after the
`LOGE` overflow diagnostic.  The `assert(false)` on the overflow path is a
debug-build aid compiled out under `NDEBUG`; the release-build behaviour
embedded here is the diagnostic plus truncation. -/
def updateSSBO {α : Type} (nodes : List α) (currentSSBOSize : Nat) : SSBOCopy :=
  let hostPhysicsObjects := nodes
  if hostPhysicsObjects.isEmpty then
    { overflowDiagnostic := false, copiedBytes := 0 }
  else
    let dataSize := hostPhysicsObjects.length * physicsObjectSize
    if dataSize > currentSSBOSize then
      { overflowDiagnostic := true, copiedBytes := currentSSBOSize }
    else
      { overflowDiagnostic := false, copiedBytes := dataSize }

/-! ### FrameContext resize path (FrameContext::recreate, SwapchainManager.cpp
combined file lines 140-159) -/

/-- Extent-dependent image kinds created by the three `create*` members that
`recreate` invokes. -/
inductive ImageKind where
  | depth
  | computeStorage
  | rayTracingOutput
deriving DecidableEq

/-- One created image resource, recording the kind and the swapchain extent
it was sized against. -/
structure ImageResource where
  kind : ImageKind
  width : Nat
  height : Nat
deriving DecidableEq

/-- Facts about the swapchain that the `create*` members read: the current
extent and `swapchain.images.size()`. -/
structure SwapchainInfo where
  extentWidth : Nat
  extentHeight : Nat
  imageCount : Nat
deriving DecidableEq

/-- Frame-resource pool state, one field per member of `FrameContext`
(FrameContext.h); members whose internal structure is irrelevant to the
resize claim are opaque `Nat` handle lists. -/
structure FrameContext where
  shadowImages : List Nat
  shadowImagesMemory : List Nat
  shadowCascadeViews : List Nat
  shadowArrayViews : List Nat
  shadowSampler : Nat
  frameIndex : Nat
  commandPool : Nat
  commandBuffers : List Nat
  presentCompleteSemaphores : List Nat
  renderFinishedSemaphores : List Nat
  inFlightFences : List Nat
  depthImages : List ImageResource
  depthImagesMemory : List ImageResource
  depthImageViews : List ImageResource
  storageImages : List ImageResource
  storageImagesMemory : List ImageResource
  storageImageViews : List ImageResource
  rayTracingOutputImages : List ImageResource
  rayTracingOutputImagesMemory : List ImageResource
  rayTracingOutputImageViews : List ImageResource
  uniformBuffers : List Nat
  uniformBuffersMemory : List Nat
  uniformBuffersMapped : List Nat
  tlas : List Nat
  tlasBuffers : List Nat
  tlasMemories : List Nat
  tlasScratchBuffers : List Nat
  tlasScratchMemories : List Nat
  tlasScratchAddresses : List Nat
  tlasInstanceBuffers : List Nat
  tlasInstanceMemories : List Nat
  tlasInstanceBuffersMapped : List Nat
  tlasInstanceAddresses : List Nat
deriving DecidableEq

/-- Embedding of `FrameContext::cleanupSwapChainDependents` (lines 140-151):
clears the storage, ray-tracing output and depth image vectors (views,
images, memories) and nothing else. -/
def FrameContext.cleanupSwapChainDependents (fc : FrameContext) : FrameContext :=
  { fc with
    storageImageViews := []
    storageImages := []
    storageImagesMemory := []
    rayTracingOutputImageViews := []
    rayTracingOutputImages := []
    rayTracingOutputImagesMemory := []
    depthImageViews := []
    depthImages := []
    depthImagesMemory := [] }

/-- Embedding of `FrameContext::createDepthResources` (lines 201-229): one
depth image, memory and view per swapchain image, sized to the current
swapchain extent. -/
def FrameContext.createDepthResources (sc : SwapchainInfo) (fc : FrameContext) : FrameContext :=
  let fresh := List.replicate sc.imageCount
      (ImageResource.mk ImageKind.depth sc.extentWidth sc.extentHeight)
  { fc with depthImages := fresh, depthImagesMemory := fresh, depthImageViews := fresh }

/-- Embedding of `FrameContext::createStorageResources` (lines 231-260): one
HDR compute storage image per frame slot, sized to the swapchain extent. -/
def FrameContext.createStorageResources (sc : SwapchainInfo) (fc : FrameContext) : FrameContext :=
  let fresh := List.replicate MAX_FRAMES_IN_FLIGHT
      (ImageResource.mk ImageKind.computeStorage sc.extentWidth sc.extentHeight)
  { fc with storageImages := fresh, storageImagesMemory := fresh, storageImageViews := fresh }

/-- Embedding of `FrameContext::createRayTracingOutputImages` (lines 262-291):
one ray-tracing output image per frame slot, sized to the swapchain extent. -/
def FrameContext.createRayTracingOutputImages (sc : SwapchainInfo) (fc : FrameContext) :
    FrameContext :=
  let fresh := List.replicate MAX_FRAMES_IN_FLIGHT
      (ImageResource.mk ImageKind.rayTracingOutput sc.extentWidth sc.extentHeight)
  { fc with
    rayTracingOutputImages := fresh
    rayTracingOutputImagesMemory := fresh
    rayTracingOutputImageViews := fresh }

/-- Embedding of `FrameContext::recreate` (lines 153-159): cleanup of the
swapchain-dependent images, then recreation of storage, ray-tracing output
and depth resources against the new swapchain. -/
def FrameContext.recreate (sc : SwapchainInfo) (fc : FrameContext) : FrameContext :=
  (((fc.cleanupSwapChainDependents).createStorageResources sc).createRayTracingOutputImages
      sc).createDepthResources sc

/-! ### Per-frame sync objects (FrameContext::createSyncObjects, lines 180-199) -/

/-- Identity of a binary semaphore: the acquire semaphores are indexed by
frame slot, the render-complete semaphores by swapchain image. -/
inductive SemId where
  | presentComplete (slot : Nat)
  | renderFinished (image : Nat)
deriving DecidableEq

/-- Synchronization objects created at startup. -/
structure SyncObjects where
  renderFinishedSemaphores : List SemId
  presentCompleteSemaphores : List SemId
  inFlightFencesSignaled : List Bool
deriving DecidableEq

/-- Embedding of `FrameContext::createSyncObjects` (lines 180-199): one
render-finished semaphore per swapchain image, and one acquire semaphore
plus one pre-signalled fence per frame slot. -/
def createSyncObjects (imageCount : Nat) : SyncObjects :=
  { renderFinishedSemaphores := (List.range imageCount).map SemId.renderFinished
    presentCompleteSemaphores := (List.range MAX_FRAMES_IN_FLIGHT).map SemId.presentComplete
    inFlightFencesSignaled := List.replicate MAX_FRAMES_IN_FLIGHT true }

/-! ### Frame orchestration (EngineCore::drawFrame, part_004 lines 1025-1111) -/

/-- Outcome of `acquireNextImage` as distinguished by `drawFrame`:
out-of-date aborts the frame, success and suboptimal proceed with the
returned image index, anything else throws. -/
inductive AcquireResult where
  | success (imageIndex : Nat)
  | suboptimal (imageIndex : Nat)
  | errorOutOfDate
  | otherFailure
deriving DecidableEq

/-- Outcome of `presentKHR` as distinguished by `drawFrame`; the
`vk::SurfaceLostKHRError` catch clause maps surface loss to out-of-date. -/
inductive PresentResult where
  | success
  | suboptimal
  | errorOutOfDate
  | surfaceLost
deriving DecidableEq

/-- Host-visible actions `drawFrame` performs, in recorded order. -/
inductive FrameEvent where
  | waitFence (slot : Nat)
  | acquireImage (signalSem : SemId)
  | recreateSwapchain
  | updateUniform (slot : Nat)
  | resetFence (slot : Nat)
  | resetCommandBuffer (slot : Nat)
  | beginCommandBuffer (slot : Nat)
  | recordCommands (slot : Nat) (image : Nat)
  | endCommandBuffer (slot : Nat)
  | submit (waitSem : SemId) (signalSem : SemId) (fenceSlot : Nat) (cmdSlot : Nat)
  | present (waitSem : SemId) (image : Nat)
deriving DecidableEq

/-- Engine state read and written by `drawFrame`: the rotating frame-slot
index, the per-slot fence states, the externally set resize flag and a
generation counter bumped by every `recreateSwapChain`. -/
structure EngineState where
  frameIndex : Nat
  fenceSignaled : List Bool
  framebufferResized : Bool
  swapchainGeneration : Nat
deriving DecidableEq

/-- Effect of `EngineCore::recreateSwapChain` (part_004 lines 165-186) on the
engine state: the presentation chain and extent-dependent resources are
rebuilt (generation bump); frame slots, fences and the slot index are not
touched (`FrameContext.recreate` above rebuilds no sync object). -/
def recreateSwapChainState (st : EngineState) : EngineState :=
  { st with swapchainGeneration := st.swapchainGeneration + 1 }

/-- Events of the record-and-submit portion of a non-aborted frame, in
source order (part_004 lines 1048-1089): uniform update, fence reset,
command reset/begin/record/end, submit and present, with the submit
waiting on the acquire semaphore of the slot, signalling the
render-finished semaphore of the image, and fenced by the slot fence, and
the present waiting on that same image-indexed semaphore. -/
def submittedFrameEvents (slot imageIndex : Nat) : List FrameEvent :=
  [FrameEvent.updateUniform slot,
   FrameEvent.resetFence slot,
   FrameEvent.resetCommandBuffer slot,
   FrameEvent.beginCommandBuffer slot,
   FrameEvent.recordCommands slot imageIndex,
   FrameEvent.endCommandBuffer slot,
   FrameEvent.submit (SemId.presentComplete slot) (SemId.renderFinished imageIndex) slot slot,
   FrameEvent.present (SemId.renderFinished imageIndex) imageIndex]

/-- Embedding of `EngineCore::drawFrame` (part_004 lines 1025-1111), with the
acquire and present outcomes supplied as oracles.  Flow: wait on the slot
fence; acquire (signalling the slot acquire semaphore); on out-of-date,
recreate the swapchain and return at once; otherwise update uniforms,
reset the slot fence, record, submit, present; a suboptimal/out-of-date
present or a pending resize flag triggers a swapchain recreation; finally
the slot index advances modulo `MAX_FRAMES_IN_FLIGHT`. -/
def drawFrame (acq : AcquireResult) (pres : PresentResult) (st : EngineState) :
    Except String (EngineState × List FrameEvent) :=
  let slot := st.frameIndex
  let preEvents := [FrameEvent.waitFence slot,
                    FrameEvent.acquireImage (SemId.presentComplete slot)]
  match acq with
  | AcquireResult.errorOutOfDate =>
      Except.ok (recreateSwapChainState st, preEvents ++ [FrameEvent.recreateSwapchain])
  | AcquireResult.otherFailure =>
      Except.error "failed to acquire swap chain image!"
  | AcquireResult.success imageIndex | AcquireResult.suboptimal imageIndex =>
      let events := preEvents ++ submittedFrameEvents slot imageIndex
      let st1 := { st with fenceSignaled := st.fenceSignaled.set slot false }
      let presTreated := match pres with
        | PresentResult.surfaceLost => PresentResult.errorOutOfDate
        | r => r
      if presTreated = PresentResult.suboptimal ∨ presTreated = PresentResult.errorOutOfDate ∨
          st1.framebufferResized then
        let st2 := recreateSwapChainState { st1 with framebufferResized := false }
        Except.ok ({ st2 with frameIndex := (st2.frameIndex + 1) % MAX_FRAMES_IN_FLIGHT },
                   events ++ [FrameEvent.recreateSwapchain])
      else
        Except.ok ({ st1 with frameIndex := (st1.frameIndex + 1) % MAX_FRAMES_IN_FLIGHT },
                   events)

/-! ### Octree spatial index (part_009, Octree.h) and Scene::draw culling
(src/src/SceneManagement/Scene.cpp lines 289-312) -/

/-- World-space position; the float components of `glm::vec3` are modelled
over `ℚ` so that all geometric tests stay decidable and executable. -/
structure Vec3 where
  x : ℚ
  y : ℚ
  z : ℚ
deriving DecidableEq

/-- Axis-aligned bounding box (part_009, struct AABB). -/
structure AABB where
  lo : Vec3
  hi : Vec3
deriving DecidableEq

/-- Embedding of `AABB::contains` (part_009 lines 326-330): the point lies
inside or on the boundary. -/
def AABB.containsPoint (b : AABB) (p : Vec3) : Bool :=
  decide (p.x ≥ b.lo.x) && decide (p.x ≤ b.hi.x) &&
  decide (p.y ≥ b.lo.y) && decide (p.y ≤ b.hi.y) &&
  decide (p.z ≥ b.lo.z) && decide (p.z ≤ b.hi.z)

/-- Embedding of `AABB::intersects` (part_009 lines 333-337): separating-axis
overlap test. -/
def AABB.intersects (b other : AABB) : Bool :=
  (decide (b.lo.x ≤ other.hi.x) && decide (b.hi.x ≥ other.lo.x)) &&
  (decide (b.lo.y ≤ other.hi.y) && decide (b.hi.y ≥ other.lo.y)) &&
  (decide (b.lo.z ≤ other.hi.z) && decide (b.hi.z ≥ other.lo.z))

/-- Scene node as seen by the octree: an identity and the world position the
octree tests (`node->getWorldPosition()`). -/
structure OctNode where
  id : Nat
  pos : Vec3
deriving DecidableEq

/-- Octree capacity.  The class default (`capacity = 4`) is what
`Scene::init` uses (`std::make_unique<Octree>(worldBounds)`), and every
octree in the engine is built that way, so the capacity is fixed here. -/
def octreeCapacity : Nat := 4

/-- Loose octree (part_009, class Octree): a boundary, directly stored
nodes, and either no children or the eight subdivision octants.  An empty
child list models `children[0] == nullptr`. -/
inductive Octree where
  | mk (boundary : AABB) (nodes : List OctNode) (children : List Octree)

/-- Boundary of an octree node. -/
def Octree.boundary : Octree → AABB
  | Octree.mk b _ _ => b

/-- Directly stored nodes of an octree node. -/
def Octree.storedNodes : Octree → List OctNode
  | Octree.mk _ ns _ => ns

/-- Children of an octree node. -/
def Octree.childList : Octree → List Octree
  | Octree.mk _ _ cs => cs

/-- Boundaries of the eight octants `Octree::subdivide` creates
(part_009 lines 412-429), in the same order. -/
def octantBoxes (b : AABB) : List AABB :=
  let mn := b.lo
  let mx := b.hi
  let c : Vec3 := ⟨(mn.x + mx.x) * (1 / 2), (mn.y + mx.y) * (1 / 2), (mn.z + mx.z) * (1 / 2)⟩
  [⟨mn, c⟩,
   ⟨⟨c.x, mn.y, mn.z⟩, ⟨mx.x, c.y, c.z⟩⟩,
   ⟨⟨mn.x, mn.y, c.z⟩, ⟨c.x, c.y, mx.z⟩⟩,
   ⟨⟨c.x, mn.y, c.z⟩, ⟨mx.x, c.y, mx.z⟩⟩,
   ⟨⟨mn.x, c.y, mn.z⟩, ⟨c.x, mx.y, c.z⟩⟩,
   ⟨⟨c.x, c.y, mn.z⟩, ⟨mx.x, mx.y, c.z⟩⟩,
   ⟨⟨mn.x, c.y, c.z⟩, ⟨c.x, mx.y, mx.z⟩⟩,
   ⟨c, mx⟩]

/-- Insertion of a node into one fresh (empty, childless) octant created by
`subdivide`.  On such a child, `Octree::insert` reduces to the boundary
check followed by the `nodes.size() < capacity` push (`0 < 4`); the
agreement with `Octree.insert` is proved below
(`insert_on_fresh_child_eq_freshInsert`). -/
def freshInsert (bb : AABB) (n : OctNode) : Bool × Octree :=
  if bb.containsPoint n.pos then (true, Octree.mk bb [n] [])
  else (false, Octree.mk bb [] [])

/-- Insertion attempt into a list of fresh octants, mirroring the
`for (auto &child : children) if (child->insert(node)) return true;` loop
run immediately after `subdivide`: the first octant containing the
position takes the node; later octants are not tried. -/
def insertFreshList (n : OctNode) : List AABB → Bool × List Octree
  | [] => (false, [])
  | bb :: bbs =>
    match freshInsert bb n with
    | (true, c) => (true, c :: bbs.map (fun b => Octree.mk b [] []))
    | (false, c) =>
      let rest := insertFreshList n bbs
      (rest.1, c :: rest.2)

mutual

/-- Embedding of `Octree::insert` (part_009 lines 351-374): reject a
position outside the boundary; store directly while below capacity and
childless; otherwise subdivide if needed, try every child in order, and
keep the node here when no child takes it. -/
def Octree.insert : Octree → OctNode → Bool × Octree
  | Octree.mk b ns cs, n =>
    if ¬ b.containsPoint n.pos then (false, Octree.mk b ns cs)
    else if ns.length < octreeCapacity ∧ cs.isEmpty then (true, Octree.mk b (ns ++ [n]) cs)
    else if cs.isEmpty then
      match insertFreshList n (octantBoxes b) with
      | (true, fresh) => (true, Octree.mk b ns fresh)
      | (false, fresh) => (true, Octree.mk b (ns ++ [n]) fresh)
    else
      match Octree.insertIntoChildren cs n with
      | some csNew => (true, Octree.mk b ns csNew)
      | none => (true, Octree.mk b (ns ++ [n]) cs)

/-- Child-insertion loop of `Octree::insert`: the first child whose insert
succeeds is replaced; `none` when no child accepts the node. -/
def Octree.insertIntoChildren : List Octree → OctNode → Option (List Octree)
  | [], _ => none
  | c :: cs, n =>
    match Octree.insert c n with
    | (true, cNew) => some (cNew :: cs)
    | (false, _) =>
      match Octree.insertIntoChildren cs n with
      | some csNew => some (c :: csNew)
      | none => none

end

mutual

/-- Embedding of `Octree::query` (part_009 lines 377-394): prune subtrees
whose boundary misses the range, collect directly stored nodes whose world
position lies in the range, then visit the children in order. -/
def Octree.query : Octree → AABB → List OctNode
  | Octree.mk b ns cs, range =>
    if ¬ b.intersects range then []
    else ns.filter (fun n => range.containsPoint n.pos) ++ Octree.queryChildren cs range

/-- Child traversal of `Octree::query`. -/
def Octree.queryChildren : List Octree → AABB → List OctNode
  | [], _ => []
  | c :: cs, range => c.query range ++ Octree.queryChildren cs range

end

mutual

/-- All nodes stored anywhere in the octree, in storage order. -/
def Octree.elements : Octree → List OctNode
  | Octree.mk _ ns cs => ns ++ Octree.elementsOfList cs

/-- All nodes stored in a list of subtrees. -/
def Octree.elementsOfList : List Octree → List OctNode
  | [] => []
  | c :: cs => c.elements ++ Octree.elementsOfList cs

end

mutual

/-- Structural invariant maintained by `Octree::insert`: every node stored
in a subtree has a world position inside that subtree boundary. -/
def Octree.inv : Octree → Prop
  | Octree.mk b ns cs =>
    (∀ n ∈ ns ++ Octree.elementsOfList cs, b.containsPoint n.pos = true) ∧ Octree.invList cs

/-- Invariant of a list of subtrees. -/
def Octree.invList : List Octree → Prop
  | [] => True
  | c :: cs => Octree.inv c ∧ Octree.invList cs

end

/-- Octree built the way `Scene::rebuildOctree` (Scene.cpp lines 96-117)
populates it: starting from the empty octree over the world bounds
(`Scene::init`), every scene node is offered to `Octree::insert` in turn
(the return value is discarded, as in the source). -/
def buildOctree (worldBounds : AABB) (sceneNodes : List OctNode) : Octree :=
  sceneNodes.foldl (fun t n => (t.insert n).2) (Octree.mk worldBounds [] [])

/-- Embedding of the culling step of `Scene::draw` (Scene.cpp lines 289-312,
freeze-culling disabled): the drawn nodes are exactly the octree query
result for the camera cull box, in query order (`drawNode` is invoked once
per returned node). -/
def sceneDrawnNodes (octree : Octree) (cullBounds : AABB) : List OctNode :=
  octree.query cullBounds

/-! ### Concrete evaluation fixtures -/

/-- Example discrete GPU satisfying every mandatory requirement, with a
1 GiB device-local heap (score 10000 + 1024 = 11024). -/
def exDiscreteDevice : PhysicalDevice :=
  { apiVersion := VK_API_VERSION_1_4
    queueFamilyHasGraphics := [true]
    availableExtensions := requiredDeviceExtension
    deviceType := DeviceType.discreteGpu
    memoryHeaps := [{ deviceLocal := true, size := 1024 * 1024 * 1024 }] }

/-- Example integrated GPU satisfying every mandatory requirement, with a
10 GiB device-local heap (score 1000 + 10240 = 11240). -/
def exIntegratedDevice : PhysicalDevice :=
  { apiVersion := VK_API_VERSION_1_4
    queueFamilyHasGraphics := [true]
    availableExtensions := requiredDeviceExtension
    deviceType := DeviceType.integratedGpu
    memoryHeaps := [{ deviceLocal := true, size := 10 * 1024 * 1024 * 1024 }] }

/-- Example world bounds for octree evaluation. -/
def exWorldBounds : AABB := ⟨⟨-10, -10, -10⟩, ⟨10, 10, 10⟩⟩

/-- Example camera cull box for octree evaluation. -/
def exCullBounds : AABB := ⟨⟨-1, -1, -1⟩, ⟨1, 1, 1⟩⟩

/-- Example scene-node list: one node inside the cull box, one inside the
world but outside the cull box, one outside the world bounds. -/
def exSceneNodes : List OctNode :=
  [⟨0, ⟨0, 0, 0⟩⟩, ⟨1, ⟨5, 5, 5⟩⟩, ⟨2, ⟨20, 0, 0⟩⟩]

/-- Example engine state with both slot fences signalled. -/
def exEngineState : EngineState :=
  { frameIndex := 0
    fenceSignaled := [true, true]
    framebufferResized := false
    swapchainGeneration := 0 }

/-- Event list `drawFrame` produces from `exEngineState` when image 2 is
acquired successfully and the present succeeds. -/
def exFrameEvents : List FrameEvent :=
  [FrameEvent.waitFence 0,
   FrameEvent.acquireImage (SemId.presentComplete 0),
   FrameEvent.updateUniform 0,
   FrameEvent.resetFence 0,
   FrameEvent.resetCommandBuffer 0,
   FrameEvent.beginCommandBuffer 0,
   FrameEvent.recordCommands 0 2,
   FrameEvent.endCommandBuffer 0,
   FrameEvent.submit (SemId.presentComplete 0) (SemId.renderFinished 2) 0 0,
   FrameEvent.present (SemId.renderFinished 2) 2]

/-- Engine state after that frame: slot fence 0 reset, slot index advanced. -/
def exEngineStateAfter : EngineState :=
  { frameIndex := 1
    fenceSignaled := [false, true]
    framebufferResized := false
    swapchainGeneration := 0 }

/-! ## Theorems -/

/-- C3 (counterexample): when Mailbox is offered but FIFO is not,
`chooseSwapPresentMode` raises the fatal error instead of returning the
offered Mailbox mode, contradicting the claim that the low-latency mode is
returned whenever offered and that the error occurs only when neither
mode is offered. -/
theorem chooseSwapPresentMode_mailbox_without_fifo_fails :
    chooseSwapPresentMode [PresentMode.mailbox] =
      Except.error "Vulkan driver missing mandatory FIFO present mode (spec violation)" ∧
    chooseSwapPresentMode [PresentMode.mailbox] ≠ Except.ok PresentMode.mailbox := by
  exact ⟨rfl, fun h => Except.noConfusion h⟩

/-- C3 (amended): `chooseSwapPresentMode` raises the fatal error exactly
when FIFO is not among the offered modes (regardless of Mailbox); when
FIFO is offered it returns Mailbox if Mailbox is also offered and FIFO
otherwise. -/
theorem chooseSwapPresentMode_characterization (modes : List PresentMode) :
    chooseSwapPresentMode modes =
      if PresentMode.fifo ∈ modes then
        if PresentMode.mailbox ∈ modes then Except.ok PresentMode.mailbox
        else Except.ok PresentMode.fifo
      else
        Except.error "Vulkan driver missing mandatory FIFO present mode (spec violation)" := by
  have h1 : ((modes.any fun presentMode => presentMode = PresentMode.fifo) = true) ↔
      PresentMode.fifo ∈ modes := by
    simp [List.any_eq_true]
  have h2 : ((modes.any fun value => PresentMode.mailbox = value) = true) ↔
      PresentMode.mailbox ∈ modes := by
    simp only [List.any_eq_true, decide_eq_true_eq]
    constructor
    · rintro ⟨x, hx, rfl⟩
      exact hx
    · intro h
      exact ⟨_, h, rfl⟩
  unfold chooseSwapPresentMode
  by_cases hf : PresentMode.fifo ∈ modes <;> by_cases hm : PresentMode.mailbox ∈ modes <;>
    simp [h1, h2, hf, hm]

/-- C4: decoding the packed 24-bit custom index built at part_004 line 709
recovers the exact model identity and primitive offset, for every model
identity below 1024 and primitive offset below 16384. -/
theorem customIndex_roundTrip (modelId primitiveOffset : Nat)
    (hm : modelId < 1024) (hp : primitiveOffset < 16384) :
    decodeCustomIndex (encodeCustomIndex modelId primitiveOffset) = (modelId, primitiveOffset) := by
  have hmask : (2 : Nat) ^ 14 - 1 = 16383 := by norm_num
  have hand : primitiveOffset &&& 0x3FFF = primitiveOffset := by
    have h := Nat.and_pow_two_sub_one_eq_mod primitiveOffset 14
    rw [hmask] at h
    rw [h]
    omega
  have hor : (modelId <<< 14) ||| primitiveOffset = 2 ^ 14 * modelId + primitiveOffset := by
    apply Nat.eq_of_testBit_eq
    intro i
    rw [Nat.testBit_mul_pow_two_add modelId (by omega : primitiveOffset < 2 ^ 14) i,
      Nat.testBit_or, Nat.testBit_shiftLeft]
    by_cases h : i < 14
    · simp [h, Nat.not_le_of_lt h]
    · have hbit : primitiveOffset.testBit i = false := by
        apply Nat.testBit_lt_two_pow
        exact lt_of_lt_of_le (by omega : primitiveOffset < 2 ^ 14)
          (Nat.pow_le_pow_right (by norm_num) (by omega))
      simp [h, Nat.le_of_not_lt h, hbit]
  have henc : encodeCustomIndex modelId primitiveOffset =
      2 ^ 14 * modelId + primitiveOffset := by
    unfold encodeCustomIndex
    rw [hand, hor]
    exact Nat.mod_eq_of_lt (by omega)
  unfold decodeCustomIndex
  rw [henc]
  have hdec : (2 ^ 14 * modelId + primitiveOffset) &&& 0x3FFF = primitiveOffset := by
    have h := Nat.and_pow_two_sub_one_eq_mod (2 ^ 14 * modelId + primitiveOffset) 14
    rw [hmask] at h
    rw [show (0x3FFF : Nat) = 16383 from rfl, h]
    omega
  refine Prod.ext ?_ ?_
  · show (2 ^ 14 * modelId + primitiveOffset) >>> 14 = modelId
    omega
  · exact hdec

/-- C4 (witness): concrete round trip at model identity 3, primitive
offset 5. -/
theorem customIndex_roundTrip_witness :
    (3 : Nat) < 1024 ∧ (5 : Nat) < 16384 ∧
    decodeCustomIndex (encodeCustomIndex 3 5) = (3, 5) :=
  ⟨by decide, by decide, customIndex_roundTrip 3 5 (by decide) (by decide)⟩

/-- C6: each cascade split depth equals the 0.95/0.05 log/linear blend over
near 0.1 and far 200 written in the specification, and the value does not
depend on the camera far plane. -/
theorem cascadeSplitDepth_matches_spec (cameraFarPlane : ℝ) (i : Fin 4) :
    cascadeSplitDepth cameraFarPlane i = cascadeSplitSpecFormula i ∧
    cascadeSplitDepth cameraFarPlane i = cascadeSplitDepth 1000 i := by
  refine ⟨?_, rfl⟩
  unfold cascadeSplitDepth cascadeSplitSpecFormula
  norm_num

/-- C7: `updateSSBO` never copies more bytes than the preallocated SSBO
capacity, and whenever the serialized node data exceeds the capacity it
emits the overflow diagnostic and truncates the copy to exactly the
capacity. -/
theorem updateSSBO_truncates {α : Type} (nodes : List α) (currentSSBOSize : Nat) :
    (updateSSBO nodes currentSSBOSize).copiedBytes ≤ currentSSBOSize ∧
    (nodes ≠ [] → nodes.length * physicsObjectSize > currentSSBOSize →
      updateSSBO nodes currentSSBOSize =
        { overflowDiagnostic := true, copiedBytes := currentSSBOSize }) := by
  refine ⟨?_, ?_⟩
  · unfold updateSSBO
    by_cases h1 : nodes.isEmpty
    · simp [h1]
    · by_cases h2 : nodes.length * physicsObjectSize > currentSSBOSize
      · simp [h1, h2]
      · simp [h1, h2]
        omega
  · intro hne hover
    have h1 : nodes.isEmpty = false := by
      simp [List.isEmpty_iff, hne]
    unfold updateSSBO
    simp [h1, hover]

/-- C7 (witness): two physics objects (128 bytes) against a 64-byte SSBO:
the copy is truncated to 64 bytes after the diagnostic. -/
theorem updateSSBO_truncates_witness :
    (updateSSBO [0, 1] 64).copiedBytes ≤ 64 ∧
    updateSSBO ([0, 1] : List Nat) 64 = { overflowDiagnostic := true, copiedBytes := 64 } :=
  ⟨(updateSSBO_truncates [0, 1] 64).1,
   (updateSSBO_truncates [0, 1] 64).2 (by decide) (by decide)⟩

/-- C5: `FrameContext::recreate` rebuilds exactly the extent-dependent
members — depth, compute-storage and ray-tracing output images with their
memories and views, re-sized to the new swapchain extent — and leaves
every other member (shadow atlas images/views/sampler, uniform buffers,
TLAS handles and buffers, command pool/buffers, semaphores, fences)
untouched, as the single record-update equality below exhibits. -/
theorem recreate_rebuilds_only_extent_dependents (sc : SwapchainInfo) (fc : FrameContext) :
    fc.recreate sc =
      { fc with
        depthImages := List.replicate sc.imageCount
          (ImageResource.mk ImageKind.depth sc.extentWidth sc.extentHeight)
        depthImagesMemory := List.replicate sc.imageCount
          (ImageResource.mk ImageKind.depth sc.extentWidth sc.extentHeight)
        depthImageViews := List.replicate sc.imageCount
          (ImageResource.mk ImageKind.depth sc.extentWidth sc.extentHeight)
        storageImages := List.replicate MAX_FRAMES_IN_FLIGHT
          (ImageResource.mk ImageKind.computeStorage sc.extentWidth sc.extentHeight)
        storageImagesMemory := List.replicate MAX_FRAMES_IN_FLIGHT
          (ImageResource.mk ImageKind.computeStorage sc.extentWidth sc.extentHeight)
        storageImageViews := List.replicate MAX_FRAMES_IN_FLIGHT
          (ImageResource.mk ImageKind.computeStorage sc.extentWidth sc.extentHeight)
        rayTracingOutputImages := List.replicate MAX_FRAMES_IN_FLIGHT
          (ImageResource.mk ImageKind.rayTracingOutput sc.extentWidth sc.extentHeight)
        rayTracingOutputImagesMemory := List.replicate MAX_FRAMES_IN_FLIGHT
          (ImageResource.mk ImageKind.rayTracingOutput sc.extentWidth sc.extentHeight)
        rayTracingOutputImageViews := List.replicate MAX_FRAMES_IN_FLIGHT
          (ImageResource.mk ImageKind.rayTracingOutput sc.extentWidth sc.extentHeight) } :=
  rfl

/-- C1 (counterexample): on a frame with the rasterization path active and a
nonempty drawable-instance list, the recorded TLAS section contains no
build command at all, contradicting the claim that the top-level structure
is rebuilt every frame regardless of the active rendering path. -/
theorem recordTlasSection_raster_skips_build :
    (recordTlasSection false [⟨0⟩]).buildPrimitiveCount = none ∧
    ([⟨0⟩] : List TlasInstance) ≠ [] := by
  exact ⟨rfl, by decide⟩

/-- C1 (amended): the TLAS build is recorded only when the ray-tracing path
is active; it is then recorded on every frame with primitive count equal
to the gathered instance count — in particular a build with primitive
count 0 is still recorded for an empty instance list — bracketed by the
host-write and build-to-shader-read barriers; on the rasterization path
nothing of the TLAS section is recorded. -/
theorem recordTlasSection_builds_iff_rayTracing (tlasInstances : List TlasInstance) :
    (recordTlasSection true tlasInstances).buildPrimitiveCount = some tlasInstances.length ∧
    (recordTlasSection true tlasInstances).hostWriteBarrier = true ∧
    (recordTlasSection true tlasInstances).buildReadBarrier = true ∧
    (recordTlasSection true []).buildPrimitiveCount = some 0 ∧
    (recordTlasSection false tlasInstances).buildPrimitiveCount = none ∧
    (recordTlasSection false tlasInstances).hostWriteBarrier = false ∧
    (recordTlasSection false tlasInstances).copiedBytes = none := by
  unfold recordTlasSection
  simp

/-- C8: when image acquisition reports out-of-date, `drawFrame` performs the
fence wait and the acquire, triggers the swapchain recreation, and returns
at once: the returned event list contains no uniform update, no command
recording, no submit and no present; the returned state keeps the slot
fences (no fence reset, so the slot fence stays signalled) and the
frame-slot index exactly as they were, and only the swapchain generation
advances. -/
theorem drawFrame_outOfDate_aborts (pres : PresentResult) (st : EngineState) :
    drawFrame AcquireResult.errorOutOfDate pres st =
      Except.ok ({ st with swapchainGeneration := st.swapchainGeneration + 1 },
        [FrameEvent.waitFence st.frameIndex,
         FrameEvent.acquireImage (SemId.presentComplete st.frameIndex),
         FrameEvent.recreateSwapchain]) ∧
    ({ st with swapchainGeneration := st.swapchainGeneration + 1 } : EngineState).frameIndex =
      st.frameIndex ∧
    ({ st with swapchainGeneration := st.swapchainGeneration + 1 } : EngineState).fenceSignaled =
      st.fenceSignaled :=
  ⟨rfl, rfl, rfl⟩

/-- C9: on a successfully acquired frame, the recorded submit waits on the
acquire semaphore indexed by the frame-slot index, signals the
render-complete semaphore indexed by the acquired image index, is fenced
by the slot fence, and the present waits on that same image-indexed
render-complete semaphore; `createSyncObjects` makes one render-complete
semaphore per presentable image and one acquire semaphore and one fence
per frame slot. -/
theorem drawFrame_semaphore_indexing (imageIndex : Nat) (pres : PresentResult)
    (st : EngineState) (imageCount : Nat) (stNew : EngineState) (events : List FrameEvent)
    (h : drawFrame (AcquireResult.success imageIndex) pres st = Except.ok (stNew, events)) :
    FrameEvent.submit (SemId.presentComplete st.frameIndex)
      (SemId.renderFinished imageIndex) st.frameIndex st.frameIndex ∈ events ∧
    FrameEvent.present (SemId.renderFinished imageIndex) imageIndex ∈ events ∧
    (createSyncObjects imageCount).renderFinishedSemaphores.length = imageCount ∧
    (createSyncObjects imageCount).presentCompleteSemaphores.length = MAX_FRAMES_IN_FLIGHT ∧
    (createSyncObjects imageCount).inFlightFencesSignaled.length = MAX_FRAMES_IN_FLIGHT := by
  have hmem : FrameEvent.submit (SemId.presentComplete st.frameIndex)
      (SemId.renderFinished imageIndex) st.frameIndex st.frameIndex ∈ events ∧
      FrameEvent.present (SemId.renderFinished imageIndex) imageIndex ∈ events := by
    cases pres <;> by_cases hr : st.framebufferResized <;>
      (simp [drawFrame, hr] at h
       rcases h with ⟨h1, h2⟩
       subst h2
       simp [submittedFrameEvents])
  exact ⟨hmem.1, hmem.2, by simp [createSyncObjects], by simp [createSyncObjects],
    by simp [createSyncObjects]⟩

/-- C9 (witness): the concrete frame from `exEngineState` acquiring image 2
submits with a wait on acquire semaphore 0, a signal on render-finished
semaphore 2, fence 0, and presents waiting on render-finished semaphore 2;
with 3 presentable images there are 3 render-finished semaphores and 2
acquire semaphores and fences. -/
theorem drawFrame_semaphore_indexing_witness :
    FrameEvent.submit (SemId.presentComplete exEngineState.frameIndex)
      (SemId.renderFinished 2) exEngineState.frameIndex exEngineState.frameIndex ∈
        exFrameEvents ∧
    FrameEvent.present (SemId.renderFinished 2) 2 ∈ exFrameEvents ∧
    (createSyncObjects 3).renderFinishedSemaphores.length = 3 ∧
    (createSyncObjects 3).presentCompleteSemaphores.length = MAX_FRAMES_IN_FLIGHT ∧
    (createSyncObjects 3).inFlightFencesSignaled.length = MAX_FRAMES_IN_FLIGHT :=
  drawFrame_semaphore_indexing 2 PresentResult.success exEngineState 3
    exEngineStateAfter exFrameEvents rfl

/-- Auxiliary: descending insertion never produces the empty list. -/
theorem insertByScoreDesc_ne_nil (x : Nat × PhysicalDevice) :
    ∀ l, insertByScoreDesc x l ≠ []
  | [] => by simp [insertByScoreDesc]
  | y :: ys => by
    simp only [insertByScoreDesc]
    split <;> simp

/-- Auxiliary: the head of the descending sort is a maximal-score member of
the input list. -/
theorem sortByScoreDesc_head_max :
    ∀ (l : List (Nat × PhysicalDevice)) (hd : Nat × PhysicalDevice),
      (sortByScoreDesc l).head? = some hd → hd ∈ l ∧ ∀ z ∈ l, z.1 ≤ hd.1
  | [], hd => by simp [sortByScoreDesc]
  | x :: xs, hd => by
    intro hhead
    simp only [sortByScoreDesc] at hhead
    rcases hs : sortByScoreDesc xs with _ | ⟨y, ys⟩
    · have hxs : xs = [] := by
        cases xs with
        | nil => rfl
        | cons a as => exact absurd hs (by simp only [sortByScoreDesc]; exact insertByScoreDesc_ne_nil a _)
      rw [hs] at hhead
      simp only [insertByScoreDesc, List.head?] at hhead
      subst hxs
      simp_all
    · have hy := sortByScoreDesc_head_max xs y (by rw [hs]; rfl)
      rw [hs] at hhead
      simp only [insertByScoreDesc] at hhead
      by_cases hcmp : x.1 > y.1
      · rw [if_pos hcmp] at hhead
        simp only [List.head?, Option.some.injEq] at hhead
        subst hhead
        refine ⟨List.mem_cons_self _ _, ?_⟩
        intro z hz
        rcases List.mem_cons.mp hz with rfl | hz2
        · exact le_refl _
        · exact le_of_lt (lt_of_le_of_lt (hy.2 z hz2) hcmp)
      · rw [if_neg hcmp] at hhead
        simp only [List.head?, Option.some.injEq] at hhead
        subst hhead
        refine ⟨List.mem_cons_of_mem _ hy.1, ?_⟩
        intro z hz
        rcases List.mem_cons.mp hz with rfl | hz2
        · exact le_of_not_lt hcmp
        · exact hy.2 z hz2

/-- C2 (amended): whenever `pickPhysicalDevice` selects a device, that
device satisfies every mandatory requirement and carries the maximal score
among all devices that do, where the score is 10000 for a discrete type,
1000 for an integrated type, plus the device-local memory size in MiB.
Since memory contributes to the score rather than only breaking ties, a
discrete device is guaranteed to win over an integrated one only when the
integrated device does not hold more than 9000 MiB of additional
device-local memory. -/
theorem pickPhysicalDevice_eligible_and_max (devices : List PhysicalDevice)
    (d : PhysicalDevice) (h : pickPhysicalDevice devices = some d) :
    mandatoryOk d = true ∧ d ∈ devices ∧
      ∀ e ∈ devices, mandatoryOk e = true → deviceScore e ≤ deviceScore d := by
  unfold pickPhysicalDevice at h
  rcases Option.map_eq_some'.mp h with ⟨pair, hhead, hsnd⟩
  obtain ⟨hmem, hmax⟩ := sortByScoreDesc_head_max _ pair hhead
  rw [List.mem_map] at hmem
  obtain ⟨d0, hd0, hpd⟩ := hmem
  rw [List.mem_filter] at hd0
  have hd0d : d0 = d := by rw [← hsnd, ← hpd]
  subst hd0d
  refine ⟨hd0.2, hd0.1, ?_⟩
  intro e he hmand
  have hepair : (deviceScore e, e) ∈
      (devices.filter mandatoryOk).map (fun d => (deviceScore d, d)) := by
    rw [List.mem_map]
    exact ⟨e, List.mem_filter.mpr ⟨he, hmand⟩, rfl⟩
  have := hmax _ hepair
  rw [← hpd] at this
  exact this

/-- C2 (witness): on a single-device list holding a fully capable discrete
GPU, selection returns it, it satisfies the mandatory set, and it has
maximal score. -/
theorem pickPhysicalDevice_eligible_and_max_witness :
    mandatoryOk exDiscreteDevice = true ∧ exDiscreteDevice ∈ [exDiscreteDevice] ∧
      ∀ e ∈ [exDiscreteDevice], mandatoryOk e = true →
        deviceScore e ≤ deviceScore exDiscreteDevice :=
  pickPhysicalDevice_eligible_and_max [exDiscreteDevice] exDiscreteDevice (by decide)

/-- C2 (counterexample): a discrete GPU with a 1 GiB device-local heap and
an integrated GPU with a 10 GiB device-local heap both satisfy every
mandatory requirement, yet selection picks the integrated device
(score 1000 + 10240 = 11240 against 10000 + 1024 = 11024): device-local
memory size is not only a tie-break, and a qualifying discrete device is
not always preferred over a qualifying integrated one. -/
theorem pickPhysicalDevice_integrated_beats_discrete :
    mandatoryOk exDiscreteDevice = true ∧ mandatoryOk exIntegratedDevice = true ∧
    exDiscreteDevice.deviceType = DeviceType.discreteGpu ∧
    exIntegratedDevice.deviceType = DeviceType.integratedGpu ∧
    pickPhysicalDevice [exDiscreteDevice, exIntegratedDevice] = some exIntegratedDevice := by
  decide

/-- Auxiliary: two boxes both containing the same point overlap. -/
theorem intersects_of_containsPoint_both {b r : AABB} {p : Vec3}
    (hb : b.containsPoint p = true) (hr : r.containsPoint p = true) :
    b.intersects r = true := by
  simp only [AABB.containsPoint, Bool.and_eq_true, decide_eq_true_eq] at hb hr
  simp only [AABB.intersects, Bool.and_eq_true, decide_eq_true_eq]
  obtain ⟨⟨⟨⟨⟨hb1, hb2⟩, hb3⟩, hb4⟩, hb5⟩, hb6⟩ := hb
  obtain ⟨⟨⟨⟨⟨hr1, hr2⟩, hr3⟩, hr4⟩, hr5⟩, hr6⟩ := hr
  exact ⟨⟨⟨le_trans hb1 hr2, le_trans hr1 hb2⟩, le_trans hb3 hr4, le_trans hr3 hb4⟩,
    le_trans hb5 hr6, le_trans hr5 hb6⟩

/-- Auxiliary: counting in a filtered list. -/
theorem count_filter_ite (p : OctNode → Bool) (m : OctNode) (l : List OctNode) :
    (l.filter p).count m = if p m = true then l.count m else 0 := by
  by_cases h : p m = true
  · simp [h, List.count_filter]
  · simp only [h, if_false]
    exact List.count_eq_zero.mpr (fun hm => h (List.of_mem_filter hm))

/-- Auxiliary: a list of fresh empty octants stores nothing. -/
theorem elementsOfList_freshMap :
    ∀ bbs : List AABB, Octree.elementsOfList (bbs.map (fun b => Octree.mk b [] [])) = []
  | [] => rfl
  | bb :: bbs => by
    simp only [List.map_cons, Octree.elementsOfList, Octree.elements]
    simp [elementsOfList_freshMap bbs]

/-- Auxiliary: after offering a node to a list of fresh octants, the octants
store exactly the node when some octant accepted it and nothing otherwise. -/
theorem insertFreshList_elements (n : OctNode) :
    ∀ bbs : List AABB, Octree.elementsOfList (insertFreshList n bbs).2 =
      if (insertFreshList n bbs).1 = true then [n] else []
  | [] => rfl
  | bb :: bbs => by
    simp only [insertFreshList, freshInsert]
    by_cases h : bb.containsPoint n.pos = true
    · simp only [h, if_true]
      simp [Octree.elementsOfList, Octree.elements, elementsOfList_freshMap bbs]
    · simp only [h, if_false]
      simp only [Octree.elementsOfList, Octree.elements]
      simp [insertFreshList_elements n bbs]

/-- Auxiliary: fresh octants, with or without the offered node, satisfy the
octree invariant. -/
theorem insertFreshList_inv (n : OctNode) :
    ∀ bbs : List AABB, Octree.invList (insertFreshList n bbs).2
  | [] => trivial
  | bb :: bbs => by
    simp only [insertFreshList, freshInsert]
    by_cases h : bb.containsPoint n.pos = true
    · simp only [h, if_true]
      refine ⟨⟨?_, trivial⟩, ?_⟩
      · intro x hx
        simp only [Octree.elementsOfList, List.append_nil, List.mem_singleton] at hx
        subst hx
        exact h
      · clear h
        induction bbs with
        | nil => trivial
        | cons b2 bs ih =>
          exact ⟨⟨by simp [Octree.elementsOfList], trivial⟩, ih⟩
    · simp only [h, if_false]
      exact ⟨⟨by simp [Octree.elementsOfList], trivial⟩, insertFreshList_inv n bbs⟩

/-- Auxiliary: insertion never changes the boundary of the tree. -/
theorem insert_boundary (t : Octree) (n : OctNode) : (t.insert n).2.boundary = t.boundary := by
  cases t with
  | mk b ns cs =>
    simp only [Octree.insert]
    repeat' split
    all_goals simp [Octree.boundary]

/-- Auxiliary: insertion succeeds exactly when the boundary contains the
world position of the node. -/
theorem insert_fst (t : Octree) (n : OctNode) :
    (t.insert n).1 = t.boundary.containsPoint n.pos := by
  cases t with
  | mk b ns cs =>
    simp only [Octree.insert]
    by_cases h : b.containsPoint n.pos = true
    · simp only [h, not_true, if_neg, if_false]
      repeat' split
      all_goals simp [Octree.boundary, h]
    · simp only [Octree.boundary]
      rw [if_pos]
      · simp [h]
      · simp [h]

mutual

/-- Auxiliary: insertion adds exactly one copy of the node (when accepted)
and moves nothing else, counted over all stored nodes. -/
theorem insert_count : ∀ (t : Octree) (n m : OctNode),
    ((t.insert n).2.elements).count m =
      t.elements.count m + (if (t.insert n).1 = true ∧ m = n then 1 else 0)
  | Octree.mk b ns cs, n, m => by
    cases hcb : b.containsPoint n.pos with
    | false => simp [Octree.insert, hcb]
    | true =>
      by_cases hstore : ns.length < octreeCapacity ∧ cs.isEmpty = true
      · by_cases hmn : m = n <;>
          simp [Octree.insert, hcb, hstore, hmn, Octree.elements, List.count_append] <;>
          omega
      · by_cases hempty : cs.isEmpty = true
        · have hcs : cs = [] := List.isEmpty_iff.mp hempty
          subst hcs
          have hlen : ¬ ns.length < octreeCapacity := fun hl => hstore ⟨hl, rfl⟩
          rcases hf : insertFreshList n (octantBoxes b) with ⟨ok, fresh⟩
          have hfe := insertFreshList_elements n (octantBoxes b)
          rw [hf] at hfe
          cases ok
          · simp only [Bool.false_eq_true, if_false] at hfe
            by_cases hmn : m = n <;>
              simp [Octree.insert, hcb, hlen, hf, hfe, hmn, Octree.elements,
                Octree.elementsOfList, List.count_append] <;>
              omega
          · simp only [if_true] at hfe
            by_cases hmn : m = n <;>
              simp [Octree.insert, hcb, hlen, hf, hfe, hmn, Octree.elements,
                Octree.elementsOfList, List.count_append] <;>
              omega
        · rcases hic : Octree.insertIntoChildren cs n with _ | csNew
          · by_cases hmn : m = n <;>
              simp [Octree.insert, hcb, hstore, hempty, hic, hmn, Octree.elements,
                List.count_append] <;>
              omega
          · have hcc := insertIntoChildren_count cs n m
            rw [hic] at hcc
            by_cases hmn : m = n
            · subst hmn
              simp only [if_pos rfl] at hcc
              simp [Octree.insert, hcb, hstore, hempty, hic, Octree.elements,
                List.count_append, hcc]
              omega
            · simp only [if_neg hmn, Nat.add_zero] at hcc
              simp [Octree.insert, hcb, hstore, hempty, hic, hmn, Octree.elements,
                List.count_append, hcc]

/-- Auxiliary: the child-insertion loop adds exactly one copy of the node
when some child accepts it. -/
theorem insertIntoChildren_count : ∀ (cs : List Octree) (n m : OctNode),
    (match Octree.insertIntoChildren cs n with
     | some csNew => (Octree.elementsOfList csNew).count m =
         (Octree.elementsOfList cs).count m + (if m = n then 1 else 0)
     | none => True)
  | [], n, m => by simp [Octree.insertIntoChildren]
  | c :: cs2, n, m => by
    rcases hi : Octree.insert c n with ⟨ok, cNew⟩
    have hcnt := insert_count c n m
    simp only [hi] at hcnt
    cases ok
    · rcases hrec : Octree.insertIntoChildren cs2 n with _ | csNew2
      · simp [Octree.insertIntoChildren, hi, hrec]
      · have hrc := insertIntoChildren_count cs2 n m
        rw [hrec] at hrc
        by_cases hmn : m = n
        · subst hmn
          simp only [if_pos rfl] at hrc
          simp [Octree.insertIntoChildren, hi, hrec, Octree.elementsOfList,
            List.count_append, hrc]
          omega
        · simp only [if_neg hmn, Nat.add_zero] at hrc
          simp [Octree.insertIntoChildren, hi, hrec, hmn, Octree.elementsOfList,
            List.count_append, hrc]
    · simp only [true_and] at hcnt
      by_cases hmn : m = n
      · subst hmn
        simp only [if_pos rfl] at hcnt
        simp [Octree.insertIntoChildren, hi, Octree.elementsOfList,
          List.count_append, hcnt]
        omega
      · simp only [if_neg hmn, Nat.add_zero] at hcnt
        simp [Octree.insertIntoChildren, hi, hmn, Octree.elementsOfList,
          List.count_append, hcnt]

end

/-- Auxiliary: a node stored after insertion was stored before or is the
inserted node. -/
theorem mem_insert_elements (t : Octree) (n x : OctNode)
    (hx : x ∈ (t.insert n).2.elements) : x ∈ t.elements ∨ x = n := by
  by_cases hxn : x = n
  · exact Or.inr hxn
  · left
    have hc := insert_count t n x
    rw [if_neg (by simp [hxn])] at hc
    have hpos : 0 < ((t.insert n).2.elements).count x := List.count_pos_iff.mpr hx
    rw [hc, Nat.add_zero] at hpos
    exact List.count_pos_iff.mp hpos

/-- Auxiliary: a node stored in the children after the child-insertion loop
was stored before or is the inserted node. -/
theorem mem_insertIntoChildren_elements (cs : List Octree) (n x : OctNode)
    (csNew : List Octree) (h : Octree.insertIntoChildren cs n = some csNew)
    (hx : x ∈ Octree.elementsOfList csNew) : x ∈ Octree.elementsOfList cs ∨ x = n := by
  by_cases hxn : x = n
  · exact Or.inr hxn
  · left
    have hcc := insertIntoChildren_count cs n x
    rw [h] at hcc
    rw [if_neg hxn, Nat.add_zero] at hcc
    have hpos := List.count_pos_iff.mpr hx
    rw [hcc] at hpos
    exact List.count_pos_iff.mp hpos

mutual

/-- Auxiliary: insertion preserves the octree invariant. -/
theorem insert_inv : ∀ (t : Octree) (n : OctNode), t.inv → (t.insert n).2.inv
  | Octree.mk b ns cs, n => by
    intro hinv
    rw [Octree.inv] at hinv
    obtain ⟨hall, hlist⟩ := hinv
    cases hcb : b.containsPoint n.pos with
    | false =>
      simp only [Octree.insert, hcb]
      simp only [Bool.false_eq_true, not_false_iff, if_true]
      rw [Octree.inv]
      exact ⟨hall, hlist⟩
    | true =>
      by_cases hstore : ns.length < octreeCapacity ∧ cs.isEmpty = true
      · simp [Octree.insert, hcb, hstore]
        rw [Octree.inv]
        refine ⟨?_, hlist⟩
        intro x hx
        rcases List.mem_append.mp hx with hx1 | hx2
        · rcases List.mem_append.mp hx1 with hx3 | hx4
          · exact hall x (List.mem_append.mpr (Or.inl hx3))
          · rw [List.mem_singleton.mp hx4]
            exact hcb
        · exact hall x (List.mem_append.mpr (Or.inr hx2))
      · by_cases hempty : cs.isEmpty = true
        · have hcs : cs = [] := List.isEmpty_iff.mp hempty
          subst hcs
          have hlen : ¬ ns.length < octreeCapacity := fun hl => hstore ⟨hl, rfl⟩
          rcases hf : insertFreshList n (octantBoxes b) with ⟨ok, fresh⟩
          have hfe := insertFreshList_elements n (octantBoxes b)
          rw [hf] at hfe
          have hfinv := insertFreshList_inv n (octantBoxes b)
          rw [hf] at hfinv
          cases ok
          · simp only [Bool.false_eq_true, if_false] at hfe
            simp [Octree.insert, hcb, hlen, hf]
            rw [Octree.inv]
            refine ⟨?_, hfinv⟩
            intro x hx
            rw [hfe, List.append_nil] at hx
            rcases List.mem_append.mp hx with hx1 | hx2
            · exact hall x (by simpa [Octree.elementsOfList] using hx1)
            · rw [List.mem_singleton.mp hx2]
              exact hcb
          · simp only [if_true] at hfe
            simp [Octree.insert, hcb, hlen, hf]
            rw [Octree.inv]
            refine ⟨?_, hfinv⟩
            intro x hx
            rw [hfe] at hx
            rcases List.mem_append.mp hx with hx1 | hx2
            · exact hall x (by simpa [Octree.elementsOfList] using hx1)
            · rw [List.mem_singleton.mp hx2]
              exact hcb
        · rcases hic : Octree.insertIntoChildren cs n with _ | csNew
          · simp [Octree.insert, hcb, hstore, hempty, hic]
            rw [Octree.inv]
            refine ⟨?_, hlist⟩
            intro x hx
            rcases List.mem_append.mp hx with hx1 | hx2
            · rcases List.mem_append.mp hx1 with hx3 | hx4
              · exact hall x (List.mem_append.mpr (Or.inl hx3))
              · rw [List.mem_singleton.mp hx4]
                exact hcb
            · exact hall x (List.mem_append.mpr (Or.inr hx2))
          · have hcinv := insertIntoChildren_inv cs n hlist
            rw [hic] at hcinv
            simp [Octree.insert, hcb, hstore, hempty, hic]
            rw [Octree.inv]
            refine ⟨?_, hcinv⟩
            intro x hx
            rcases List.mem_append.mp hx with hx1 | hx2
            · exact hall x (List.mem_append.mpr (Or.inl hx1))
            · rcases mem_insertIntoChildren_elements cs n x csNew hic hx2 with hx3 | hx4
              · exact hall x (List.mem_append.mpr (Or.inr hx3))
              · rw [hx4]
                exact hcb

/-- Auxiliary: the child-insertion loop preserves the invariant of every
child. -/
theorem insertIntoChildren_inv : ∀ (cs : List Octree) (n : OctNode), Octree.invList cs →
    (match Octree.insertIntoChildren cs n with
     | some csNew => Octree.invList csNew
     | none => True)
  | [], n => by
    intro hlist
    simp [Octree.insertIntoChildren]
  | c :: cs2, n => by
    intro hlist
    rw [Octree.invList] at hlist
    obtain ⟨hc, hcs2⟩ := hlist
    rcases hi : Octree.insert c n with ⟨ok, cNew⟩
    cases ok
    · rcases hrec : Octree.insertIntoChildren cs2 n with _ | csNew2
      · simp [Octree.insertIntoChildren, hi, hrec]
      · have hrecinv := insertIntoChildren_inv cs2 n hcs2
        rw [hrec] at hrecinv
        simp only [Octree.insertIntoChildren, hi, hrec]
        rw [Octree.invList]
        exact ⟨hc, hrecinv⟩
    · have hcinv := insert_inv c n hc
      rw [hi] at hcinv
      simp only [Octree.insertIntoChildren, hi]
      rw [Octree.invList]
      exact ⟨hcinv, hcs2⟩

end

mutual

/-- Auxiliary: under the invariant, the query returns every stored node
whose position lies in the range, with multiplicity, and nothing else;
pruned subtrees cannot store such a node because their boundary misses the
range. -/
theorem query_count : ∀ (t : Octree) (range : AABB) (m : OctNode), t.inv →
    (t.query range).count m =
      if range.containsPoint m.pos = true then t.elements.count m else 0
  | Octree.mk b ns cs, range, m => by
    intro hinv
    rw [Octree.inv] at hinv
    obtain ⟨hall, hlist⟩ := hinv
    cases hint : b.intersects range with
    | false =>
      simp [Octree.query, hint]
      by_cases hm : range.containsPoint m.pos = true
      · rw [if_pos hm]
        by_contra hne
        have hpos : 0 < ((Octree.mk b ns cs).elements).count m :=
          Nat.pos_of_ne_zero (fun h => hne h.symm)
        have hmem : m ∈ (Octree.mk b ns cs).elements := List.count_pos_iff.mp hpos
        have hcont : b.containsPoint m.pos = true :=
          hall m (by simpa [Octree.elements] using hmem)
        have hi := intersects_of_containsPoint_both hcont hm
        rw [hint] at hi
        exact Bool.false_ne_true hi
      · rw [if_neg hm]
    | true =>
      have hq := queryChildren_count cs range m hlist
      simp only [Octree.query, hint]
      simp only [Octree.elements, List.count_append]
      by_cases hm : range.containsPoint m.pos = true <;> simp [hm, hq, count_filter_ite]

/-- Auxiliary: child traversal of the query, counted. -/
theorem queryChildren_count : ∀ (cs : List Octree) (range : AABB) (m : OctNode),
    Octree.invList cs →
    (Octree.queryChildren cs range).count m =
      if range.containsPoint m.pos = true then (Octree.elementsOfList cs).count m else 0
  | [], range, m => by
    intro hlist
    simp [Octree.queryChildren, Octree.elementsOfList]
  | c :: cs2, range, m => by
    intro hlist
    rw [Octree.invList] at hlist
    obtain ⟨hc, hcs2⟩ := hlist
    have h1 := query_count c range m hc
    have h2 := queryChildren_count cs2 range m hcs2
    simp only [Octree.queryChildren, Octree.elementsOfList, List.count_append, h1, h2]
    by_cases hm : range.containsPoint m.pos = true <;> simp [hm]

end

/-- Auxiliary: the invariant of the empty octree over the world bounds. -/
theorem empty_octree_inv (worldBounds : AABB) : (Octree.mk worldBounds [] []).inv := by
  rw [Octree.inv]
  refine ⟨?_, trivial⟩
  intro x hx
  simp [Octree.elementsOfList] at hx

/-- Auxiliary: inserting a node list never changes the boundary. -/
theorem foldl_insert_boundary :
    ∀ (sceneNodes : List OctNode) (t : Octree),
      (sceneNodes.foldl (fun t n => (t.insert n).2) t).boundary = t.boundary
  | [], t => rfl
  | n :: ns, t => by
    simp only [List.foldl_cons]
    rw [foldl_insert_boundary ns, insert_boundary]

/-- Auxiliary: inserting a node list preserves the invariant. -/
theorem foldl_insert_inv :
    ∀ (sceneNodes : List OctNode) (t : Octree), t.inv →
      (sceneNodes.foldl (fun t n => (t.insert n).2) t).inv
  | [], _ => fun h => h
  | n :: ns, t => fun h => by
    simp only [List.foldl_cons]
    exact foldl_insert_inv ns _ (insert_inv t n h)

/-- Auxiliary: after inserting a node list, the stored nodes are the
previous stored nodes plus exactly those offered nodes whose position lies
in the boundary, with multiplicity. -/
theorem foldl_insert_count :
    ∀ (sceneNodes : List OctNode) (t : Octree) (m : OctNode),
      ((sceneNodes.foldl (fun t n => (t.insert n).2) t).elements).count m =
        t.elements.count m +
          (sceneNodes.filter (fun x => t.boundary.containsPoint x.pos)).count m
  | [], t, m => by simp
  | n :: ns, t, m => by
    simp only [List.foldl_cons, List.filter_cons]
    have hrec := foldl_insert_count ns (t.insert n).2 m
    rw [insert_boundary] at hrec
    rw [hrec, insert_count t n m, insert_fst]
    by_cases hcn : t.boundary.containsPoint n.pos = true
    · rw [if_pos hcn]
      by_cases hmn : m = n
      · subst hmn
        simp [hcn, List.count_cons]
        omega
      · simp [hcn, hmn, List.count_cons, Ne.symm hmn]
    · simp only [hcn, if_false, Bool.false_eq_true, false_and]
      simp

/-- C10: with freeze-culling off, `Scene::draw` draws exactly those scene
nodes, among the nodes inserted into the octree (those whose world
position lies in the world bounds), whose world position lies inside the
queried cull box — membership in the octree query is decided purely by the
point, so a node whose geometry merely overlaps the box is not drawn —
and, for pairwise-distinct scene nodes, no node is drawn twice. -/
theorem sceneDraw_point_culling (worldBounds cullBounds : AABB)
    (sceneNodes : List OctNode) (hnodup : sceneNodes.Nodup) :
    (∀ m, m ∈ sceneDrawnNodes (buildOctree worldBounds sceneNodes) cullBounds ↔
      (m ∈ sceneNodes ∧ worldBounds.containsPoint m.pos = true ∧
        cullBounds.containsPoint m.pos = true)) ∧
    (sceneDrawnNodes (buildOctree worldBounds sceneNodes) cullBounds).Nodup := by
  have hinv : (buildOctree worldBounds sceneNodes).inv :=
    foldl_insert_inv _ _ (empty_octree_inv worldBounds)
  have hcnt : ∀ m : OctNode,
      ((buildOctree worldBounds sceneNodes).elements).count m =
        (sceneNodes.filter (fun x => worldBounds.containsPoint x.pos)).count m := by
    intro m
    unfold buildOctree
    rw [foldl_insert_count]
    simp [Octree.elements, Octree.elementsOfList, Octree.boundary]
  have hquery : ∀ m : OctNode,
      (sceneDrawnNodes (buildOctree worldBounds sceneNodes) cullBounds).count m =
        if cullBounds.containsPoint m.pos = true then
          (sceneNodes.filter (fun x => worldBounds.containsPoint x.pos)).count m
        else 0 := by
    intro m
    unfold sceneDrawnNodes
    rw [query_count _ _ _ hinv, hcnt]
  constructor
  · intro m
    constructor
    · intro hm
      have hpos := List.count_pos_iff.mpr hm
      rw [hquery] at hpos
      by_cases hcull : cullBounds.containsPoint m.pos = true
      · rw [if_pos hcull] at hpos
        have hmem := List.count_pos_iff.mp hpos
        have hmf := List.mem_filter.mp hmem
        exact ⟨hmf.1, hmf.2, hcull⟩
      · rw [if_neg hcull] at hpos
        exact absurd hpos (lt_irrefl 0)
    · rintro ⟨hmem, hwb, hcull⟩
      apply List.count_pos_iff.mp
      rw [hquery, if_pos hcull]
      exact List.count_pos_iff.mpr (List.mem_filter.mpr ⟨hmem, hwb⟩)
  · rw [List.nodup_iff_count_le_one]
    intro m
    rw [hquery]
    by_cases hcull : cullBounds.containsPoint m.pos = true
    · rw [if_pos hcull]
      exact le_trans ((List.filter_sublist _).count_le m)
        (List.nodup_iff_count_le_one.mp hnodup m)
    · simp [hcull]

/-- C10 (witness): with world bounds of half-width 10 and a cull box of
half-width 1, the node at the origin is drawn, the node at (5,5,5) and the
out-of-world node at (20,0,0) are not, and nothing is drawn twice. -/
theorem sceneDraw_point_culling_witness :
    exSceneNodes.Nodup ∧
    ((∀ m, m ∈ sceneDrawnNodes (buildOctree exWorldBounds exSceneNodes) exCullBounds ↔
        (m ∈ exSceneNodes ∧ exWorldBounds.containsPoint m.pos = true ∧
          exCullBounds.containsPoint m.pos = true)) ∧
      (sceneDrawnNodes (buildOctree exWorldBounds exSceneNodes) exCullBounds).Nodup) :=
  ⟨by decide, sceneDraw_point_culling exWorldBounds exCullBounds exSceneNodes (by decide)⟩

end Laphria
